import Mathlib

/-!
Verification development for the 3d-tool repository: a pattern-to-displaced-mesh
pipeline that turns a tiled text/image pattern into a pair of nesting embossed /
engraved cylinder meshes.

The embedding works over exact rationals (`ℚ`) for all coordinate arithmetic,
so every definition is computable; the only real-number objects are the
square-root / arctangent values that the source obtains from `Math.sqrt` and
`Math.atan2`.  Comparisons of the form `Math.sqrt s < thr` are encoded by the
decidable predicate `sqrtLt s thr` (and `Math.sqrt s > thr` by `sqrtGt`),
each proved equivalent to the literal real-number comparison by a bridge lemma.
-/

namespace ThreeDTool

/-- Pattern kind, from `types.ts` (`PatternType`). -/
inductive PatternType where
  | text
  | image
deriving DecidableEq, Repr

/-- Application configuration, from `types.ts` (`AppState`).  Numeric fields are
exact rationals. -/
structure AppState where
  patternType : PatternType
  text : String
  imageSrc : Option String
  cylinderRadius : ℚ
  cylinderHeight : ℚ
  fontSize : ℚ
  imageScale : ℚ
  spacingX : ℚ
  spacingY : ℚ
  tilt : ℚ
  embossDepth : ℚ
  isGenerating : Bool

/-- Default configuration, from `types.ts` (`DEFAULT_STATE`). -/
def DEFAULT_STATE : AppState where
  patternType := PatternType.text
  text := "VINO's LAB"
  imageSrc := none
  cylinderRadius := 15
  cylinderHeight := 60
  fontSize := 120
  imageScale := 1
  spacingX := 20
  spacingY := 120
  tilt := 0
  embossDepth := 0.4
  isGenerating := false

/-- An HTML canvas holding the rasterized heightmap: `width`/`height` in pixels
and `data` the flat RGBA byte array returned by `getImageData` (`data i` is the
byte at flat index `i`; the displacement code reads only the red channel at
index `(py * width + px) * 4`). -/
structure Canvas where
  width : ℕ
  height : ℕ
  data : ℕ → ℕ

/-- A mesh vertex as the displacement loop sees it: position `(x, y, z)` from
the `position` attribute, normal `(nx, ny, nz)` from the `normal` attribute and
texture coordinates `(u, v)` from the `uv` attribute. -/
structure Vtx where
  x : ℚ
  y : ℚ
  z : ℚ
  nx : ℚ
  ny : ℚ
  nz : ℚ
  u : ℚ
  v : ℚ

/-- Decidable encoding of the comparison `Math.sqrt s < thr` used by the
source's radius checks: for `0 ≤ s`, `Real.sqrt s < thr` holds exactly when
`thr` is positive and `s < thr ^ 2` (see `sqrtLt_iff`). -/
def sqrtLt (s thr : ℚ) : Prop := 0 < thr ∧ s < thr ^ 2

instance (s thr : ℚ) : Decidable (sqrtLt s thr) := by
  unfold sqrtLt; infer_instance

/-- Decidable encoding of the comparison `Math.sqrt s > thr` used by the
source's shell classification: for `0 ≤ s`, `thr < Real.sqrt s` holds exactly
when `thr < 0` or `thr ^ 2 < s` (see `sqrtGt_iff`). -/
def sqrtGt (s thr : ℚ) : Prop := thr < 0 ∨ thr ^ 2 < s

instance (s thr : ℚ) : Decidable (sqrtGt s thr) := by
  unfold sqrtGt; infer_instance

/-- Heightmap sampling, from `applyDisplacement` in `geometryUtils`:
`px = Math.floor(u * width) % width` (JavaScript truncating `%`, hence
`Int.tmod`), then `if (px < 0) px += width`, likewise for `py`; the sampled
intensity is the red byte at flat RGBA index `(py * width + px) * 4`,
normalized by 255. -/
def samplePixel (hm : Canvas) (u v : ℚ) : ℚ :=
  let px0 : ℤ := Int.tmod ⌊u * (hm.width : ℚ)⌋ (hm.width : ℤ)
  let py0 : ℤ := Int.tmod ⌊v * (hm.height : ℚ)⌋ (hm.height : ℤ)
  let px : ℤ := if px0 < 0 then px0 + hm.width else px0
  let py : ℤ := if py0 < 0 then py0 + hm.height else py0
  (hm.data ((py * hm.width + px) * 4).toNat : ℚ) / 255

/-- Intensity-to-weight transfer function, from `applyDisplacement`:
`heightValue = 0`; if `rawHeight > edgeStart` then
`t = min(max((rawHeight - edgeStart) / (edgeEnd - edgeStart), 0), 1)` and
`heightValue = t * t * (3 - 2 * t)`, with `edgeStart = 0.40`,
`edgeEnd = 0.60`. -/
def smoothWeight (rawHeight : ℚ) : ℚ :=
  let edgeStart : ℚ := 0.40
  let edgeEnd : ℚ := 0.60
  if edgeStart < rawHeight then
    let t := min (max ((rawHeight - edgeStart) / (edgeEnd - edgeStart)) 0) 1
    t * t * (3 - 2 * t)
  else 0

/-- Per-vertex body of the displacement loop in `applyDisplacement`
(`geometryUtils`): skip (return the input position) when the planar radius
`Math.sqrt(x*x + z*z)` is below `minRadiusThreshold`, when `|ny| > 0.5`
(cap vertex), or when `v < 0.05 || v > 0.95` (flat safety margins); otherwise
sample the heightmap, map the intensity through `smoothWeight`, and if the
weight is positive move the vertex along its normal by
`heightValue * displacementScale` (`vector.addScaledVector(normal, ...)`). -/
def displaceVertex (hm : Canvas) (displacementScale minRadiusThreshold : ℚ)
    (p : Vtx) : ℚ × ℚ × ℚ :=
  if sqrtLt (p.x * p.x + p.z * p.z) minRadiusThreshold then (p.x, p.y, p.z)
  else if 0.5 < |p.ny| then (p.x, p.y, p.z)
  else if p.v < 0.05 ∨ 0.95 < p.v then (p.x, p.y, p.z)
  else
    let heightValue := smoothWeight (samplePixel hm p.u p.v)
    if 0 < heightValue then
      (p.x + p.nx * (heightValue * displacementScale),
       p.y + p.ny * (heightValue * displacementScale),
       p.z + p.nz * (heightValue * displacementScale))
    else (p.x, p.y, p.z)

/-- The whole displacement pass: `applyDisplacement` iterates the per-vertex
body over every vertex of the position attribute. -/
def applyDisplacement (hm : Canvas) (displacementScale minRadiusThreshold : ℚ)
    (verts : List Vtx) : List (ℚ × ℚ × ℚ) :=
  verts.map (displaceVertex hm displacementScale minRadiusThreshold)

/-- Squared Euclidean distance between two positions. -/
def distSq (a b : ℚ × ℚ × ℚ) : ℚ :=
  (a.1 - b.1) ^ 2 + (a.2.1 - b.2.1) ^ 2 + (a.2.2 - b.2.2) ^ 2

/-- Parameters of one build-and-displace run inside `updateGeometry`: the
radius handed to `buildCylinderGeometry`, the `displacementScale` and the
`minRadiusThreshold` handed to `applyDisplacement`. -/
structure GenParams where
  buildRadius : ℚ
  dispScale : ℚ
  minRadiusThreshold : ℚ

/-- Positive-mesh run, from `updateGeometry` in `CylinderObject`:
`buildCylinderGeometry(config.cylinderRadius, config.cylinderHeight, 0)`
followed by `applyDisplacement(posGeo, canvas, config.embossDepth,
config.cylinderRadius * 0.9)`. -/
def positiveParams (cfg : AppState) : GenParams :=
  ⟨cfg.cylinderRadius, cfg.embossDepth, cfg.cylinderRadius * 0.9⟩

/-- Negative-mesh run, from `updateGeometry` in `CylinderObject`:
`outerRadius = config.cylinderRadius + config.embossDepth`,
`buildCylinderGeometry(outerRadius, config.cylinderHeight, 0)` followed by
`applyDisplacement(negGeo, canvas, -config.embossDepth, outerRadius * 0.9)`. -/
def negativeParams (cfg : AppState) : GenParams :=
  ⟨cfg.cylinderRadius + cfg.embossDepth, -cfg.embossDepth,
   (cfg.cylinderRadius + cfg.embossDepth) * 0.9⟩

/-- JavaScript `Math.atan2(y, x)`: the angle of the point `(x, y)` in
`(-π, π]`, with `Math.atan2(0, 0) = 0`. -/
noncomputable def atan2 (y x : ℝ) : ℝ :=
  if 0 < x then Real.arctan (y / x)
  else if x < 0 then
    (if 0 ≤ y then Real.arctan (y / x) + Real.pi
     else Real.arctan (y / x) - Real.pi)
  else
    (if 0 < y then Real.pi / 2
     else if y < 0 then -(Real.pi / 2)
     else 0)

/-- Per-vertex body of the UV-fixing loop in `buildCylinderGeometry`
(`CylinderObject`): when the planar radius `Math.sqrt(x*x + z*z)` exceeds
`rThreshold = radius * 0.8` the vertex's UV is overwritten with the
cylindrical mapping `u = Math.atan2(x, z) / (2π) + 0.5`,
`v = (y + height / 2) / height`; otherwise the default projected UV produced
by the extrusion is kept. -/
noncomputable def fixShellUV (radius height : ℚ) (p : Vtx) : ℝ × ℝ :=
  if sqrtGt (p.x * p.x + p.z * p.z) (radius * 0.8) then
    (atan2 ((p.x : ℝ)) ((p.z : ℝ)) / (2 * Real.pi) + 0.5,
     ((p.y : ℝ) + (height : ℝ) / 2) / (height : ℝ))
  else ((p.u : ℝ), (p.v : ℝ))

/-- Plug height, from `buildCylinderGeometry` in `CylinderObject`:
`const plugHeight = Math.max(0.1, height - 30)` (sockets 15 deep at top and
bottom). -/
def plugHeight (height : ℚ) : ℚ := max 0.1 (height - 30)

/-- Plug box dimensions, from `buildCylinderGeometry`:
`new THREE.BoxGeometry(15, plugHeight, 15)`. -/
def plugDimensions (height : ℚ) : ℚ × ℚ × ℚ := (15, plugHeight height, 15)

/-- Committed display state: the two `useState` slots `displayGeoPositive`
and `displayGeoNegative` of `CylinderObject`, holding meshes of type `M`. -/
structure DisplayState (M : Type) where
  displayGeoPositive : Option M
  displayGeoNegative : Option M

/-- One run of `updateGeometry` from `CylinderObject`, parametric in the
functions `posOf` / `negOf` that produce the two meshes from the
configuration.  The `isCancelled` flag is read at the start of the function,
and again after the single suspension point (`await generateHeightMap`);
under JavaScript run-to-completion semantics the flag cannot change inside
the synchronous tail, so the post-await early return and the two
commit guards `if (!isCancelled) setDisplayGeoPositive(...)` /
`if (!isCancelled) setDisplayGeoNegative(...)` all observe the same value
`cancelledAfterAwait`. -/
def updateGeometryRun {M : Type} (posOf negOf : AppState → M)
    (cancelledAtStart cancelledAfterAwait : Bool) (cfg : AppState)
    (st : DisplayState M) : DisplayState M :=
  if cancelledAtStart then st
  else if cancelledAfterAwait then st
  else
    let st1 := if cancelledAfterAwait then st
      else { st with displayGeoPositive := some (posOf cfg) }
    if cancelledAfterAwait then st1
    else { st1 with displayGeoNegative := some (negOf cfg) }

/-- Outcome of an export request, from `handleExport` in `App.tsx` and the
export closure registered by `CylinderObject`. -/
inductive ExportOutcome where
  | exported
  | alertPleaseWait
  | alertNotReady
  | silentNoop
deriving DecidableEq, Repr

/-- Observable UI state relevant to `handleExport`: whether the export
closure has been registered (`exportFn` non-null), whether a generation
cycle is in flight (`isProcessing`), and whether the mesh group has been
rendered (`groupRef.current` non-null, which requires both meshes to have
been committed since `CylinderObject` renders `null` until then). -/
structure AppUiState where
  exportFnRegistered : Bool
  isProcessing : Bool
  groupRendered : Bool
deriving DecidableEq, Repr

/-- The export closure registered by `CylinderObject`:
`if (!groupRef.current) return;` (a silent no-op) and otherwise STL
serialization and download. -/
def runExportClosure (groupRendered : Bool) : ExportOutcome :=
  if groupRendered then ExportOutcome.exported else ExportOutcome.silentNoop

/-- Export click handler `handleExport` from `App.tsx`:
`if (exportFn && !isProcessing) exportFn(); else if (isProcessing)
alert("Please wait for generation to complete."); else alert("Geometry not
ready yet.");`. -/
def handleExport (s : AppUiState) : ExportOutcome :=
  if s.exportFnRegistered && !s.isProcessing then
    runExportClosure s.groupRendered
  else if s.isProcessing then ExportOutcome.alertPleaseWait
  else ExportOutcome.alertNotReady

/-- The UI state on first render, before any effect has run: no export
closure registered, not processing, nothing rendered. -/
def initialUiState : AppUiState := ⟨false, false, false⟩

/-- The UI state after the mount effects of `CylinderObject` have flushed:
the export closure is registered and `onProcessingChange(true)` has been
called, but no mesh pair has been committed yet. -/
def mountedUiState : AppUiState := ⟨true, true, false⟩

/-- The UI states observable before any mesh pair has been committed.
Modelled from the code plus React batched-effect semantics: on mount
`CylinderObject` registers the export closure and calls
`onProcessingChange(true)` in the same effect flush, and `isProcessing`
first returns to `false` in the same synchronous tail that commits both
meshes (`if (!isCancelled) onProcessingChange(false)` runs after the two
commit guards), so before the first commit the states visible to a click
handler are exactly the initial state and the mounted busy state. -/
def preCommitReachable (s : AppUiState) : Prop :=
  s = initialUiState ∨ s = mountedUiState

/-- A freshly created HTML canvas of the requested size: per the HTML
specification a new canvas is transparent black, i.e. every byte of its
image data is 0. -/
def createCanvasElement (w h : ℕ) : Canvas := ⟨w, h, fun _ => 0⟩

/-- The `!ctx` early return of `generateHeightMap` (`geometryUtils`): when
the 2D drawing context cannot be acquired (`if (!ctx) return canvas;`), the
freshly created canvas is returned with no drawing performed. -/
def generateHeightMapNoContext (w h : ℕ) : Canvas := createCanvasElement w h

/-- Bridge lemma: `sqrtLt` is the literal real-number comparison
`Real.sqrt s < thr`. -/
theorem sqrtLt_iff (s thr : ℚ) (hs : 0 ≤ s) :
    sqrtLt s thr ↔ Real.sqrt (s : ℝ) < (thr : ℝ) := by
  unfold sqrtLt
  constructor
  · rintro ⟨hthr, hlt⟩
    have hthr' : (0 : ℝ) < (thr : ℝ) := by exact_mod_cast hthr
    rw [show ((thr : ℝ)) = Real.sqrt ((thr : ℝ) ^ 2) from
      (Real.sqrt_sq hthr'.le).symm]
    apply Real.sqrt_lt_sqrt (by exact_mod_cast hs)
    exact_mod_cast hlt
  · intro h
    have hsq : Real.sqrt (s : ℝ) ≥ 0 := Real.sqrt_nonneg _
    have hthr' : (0 : ℝ) < (thr : ℝ) := lt_of_le_of_lt hsq h
    refine ⟨by exact_mod_cast hthr', ?_⟩
    have := (Real.sqrt_lt' hthr').mp h
    exact_mod_cast this

/-- Bridge lemma: `sqrtGt` is the literal real-number comparison
`thr < Real.sqrt s`. -/
theorem sqrtGt_iff (s thr : ℚ) :
    sqrtGt s thr ↔ (thr : ℝ) < Real.sqrt (s : ℝ) := by
  unfold sqrtGt
  constructor
  · rintro (hneg | hlt)
    · exact lt_of_lt_of_le (by exact_mod_cast hneg) (Real.sqrt_nonneg _)
    · rcases le_or_lt (thr : ℝ) 0 with h0 | h0
      · refine lt_of_le_of_lt h0 ?_
        have hlt' : ((thr : ℝ)) ^ 2 < (s : ℝ) := by exact_mod_cast hlt
        have : (0 : ℝ) < (s : ℝ) := lt_of_le_of_lt (sq_nonneg _) hlt'
        exact Real.sqrt_pos.mpr this
      · have hlt' : ((thr : ℝ)) ^ 2 < (s : ℝ) := by exact_mod_cast hlt
        calc (thr : ℝ) = Real.sqrt ((thr : ℝ) ^ 2) := (Real.sqrt_sq h0.le).symm
          _ < Real.sqrt (s : ℝ) := Real.sqrt_lt_sqrt (sq_nonneg _) hlt'
  · intro h
    rcases lt_or_le thr 0 with h0 | h0
    · exact Or.inl h0
    · right
      have h0' : (0 : ℝ) ≤ (thr : ℝ) := by exact_mod_cast h0
      have := (Real.lt_sqrt h0').mp h
      exact_mod_cast this

/-- The clamped interpolation parameter of `smoothWeight` lies in `[0, 1]`. -/
theorem smoothWeight_t_mem (r : ℚ) :
    0 ≤ min (max ((r - 0.40) / (0.60 - 0.40)) 0) 1 ∧
      min (max ((r - 0.40) / (0.60 - 0.40)) 0) 1 ≤ 1 := by
  constructor
  · exact le_min (le_max_right _ _) (by norm_num)
  · exact min_le_right _ _

/-- The smoothstep weight is nonnegative. -/
theorem smoothWeight_nonneg (r : ℚ) : 0 ≤ smoothWeight r := by
  unfold smoothWeight
  by_cases h : (0.40 : ℚ) < r
  · simp only [if_pos h]
    obtain ⟨h0, h1⟩ := smoothWeight_t_mem r
    nlinarith
  · simp [if_neg h]

/-- The smoothstep weight is at most 1. -/
theorem smoothWeight_le_one (r : ℚ) : smoothWeight r ≤ 1 := by
  unfold smoothWeight
  by_cases h : (0.40 : ℚ) < r
  · simp only [if_pos h]
    obtain ⟨h0, h1⟩ := smoothWeight_t_mem r
    nlinarith [sq_nonneg (1 - min (max ((r - 0.40) / (0.60 - 0.40)) 0) 1)]
  · simp [if_neg h]

/-- Intensities at or above the upper band edge 0.60 get weight exactly 1. -/
theorem smoothWeight_of_ge (r : ℚ) (h : 0.60 ≤ r) : smoothWeight r = 1 := by
  unfold smoothWeight
  have h1 : (0.40 : ℚ) < r := by linarith
  have h2 : (1 : ℚ) ≤ (r - 0.40) / (0.60 - 0.40) := by
    rw [le_div_iff₀ (by norm_num)]
    linarith
  have h3 : min (max ((r - 0.40) / (0.60 - 0.40)) 0) 1 = 1 := by
    rw [max_eq_left (by linarith), min_eq_right h2]
  simp only [if_pos h1]
  rw [h3]
  norm_num

/-- Intensities at or below the lower band edge 0.40 get weight exactly 0. -/
theorem smoothWeight_of_le (r : ℚ) (h : r ≤ 0.40) : smoothWeight r = 0 := by
  unfold smoothWeight
  simp [not_lt.mpr h]

/-- Case analysis on the per-vertex displacement: either the vertex is left at
its input position, or the weight is positive and the vertex moved along its
normal by `heightValue * displacementScale`. -/
theorem displaceVertex_cases (hm : Canvas) (scale thr : ℚ) (p : Vtx) :
    displaceVertex hm scale thr p = (p.x, p.y, p.z) ∨
    (0 < smoothWeight (samplePixel hm p.u p.v) ∧
      displaceVertex hm scale thr p =
        (p.x + p.nx * (smoothWeight (samplePixel hm p.u p.v) * scale),
         p.y + p.ny * (smoothWeight (samplePixel hm p.u p.v) * scale),
         p.z + p.nz * (smoothWeight (samplePixel hm p.u p.v) * scale))) := by
  unfold displaceVertex
  split_ifs with h1 h2 h3
  · exact Or.inl rfl
  · exact Or.inl rfl
  · exact Or.inl rfl
  · dsimp only []
    split_ifs with h4
    · exact Or.inr ⟨h4, rfl⟩
    · exact Or.inl rfl

/-- C3: in `applyDisplacement`, every sampled intensity in `[0, 1]` is mapped
to a displacement weight by the Hermite smoothstep over the fixed band
`[0.40, 0.60]`: intensity at most 0.40 gives weight 0, intensity at least 0.60
gives weight 1, and for intensity strictly between them the weight is
`t ^ 2 * (3 - 2 * t)` with `t = (intensity - 0.40) / 0.20`. -/
theorem smoothstep_band (i : ℚ) (h0 : 0 ≤ i) (h1 : i ≤ 1) :
    (i ≤ 0.40 → smoothWeight i = 0) ∧
    (0.60 ≤ i → smoothWeight i = 1) ∧
    (0.40 < i → i < 0.60 →
      smoothWeight i =
        ((i - 0.40) / 0.20) * ((i - 0.40) / 0.20)
          * (3 - 2 * ((i - 0.40) / 0.20))) := by
  refine ⟨fun h => smoothWeight_of_le i h, fun h => smoothWeight_of_ge i h, ?_⟩
  intro hlo hhi
  unfold smoothWeight
  have ht0 : 0 ≤ (i - 0.40) / (0.60 - 0.40) :=
    div_nonneg (by linarith) (by norm_num)
  have ht1 : (i - 0.40) / (0.60 - 0.40) ≤ 1 := by
    rw [div_le_one (by norm_num)]
    linarith
  simp only [if_pos hlo, max_eq_left ht0, min_eq_left ht1]
  norm_num

/-- Witness for C3 at the concrete intensity 0.5 strictly inside the band. -/
theorem smoothstep_band_witness :
    0 ≤ (0.5 : ℚ) ∧ (0.5 : ℚ) ≤ 1 ∧
    ((0.5 : ℚ) ≤ 0.40 → smoothWeight 0.5 = 0) ∧
    ((0.60 : ℚ) ≤ 0.5 → smoothWeight 0.5 = 1) ∧
    ((0.40 : ℚ) < 0.5 → (0.5 : ℚ) < 0.60 →
      smoothWeight 0.5 =
        (((0.5 : ℚ) - 0.40) / 0.20) * (((0.5 : ℚ) - 0.40) / 0.20)
          * (3 - 2 * (((0.5 : ℚ) - 0.40) / 0.20))) :=
  ⟨by norm_num, by norm_num, smoothstep_band 0.5 (by norm_num) (by norm_num)⟩

/-- C2: `applyDisplacement` leaves a vertex's position exactly equal to its
input position whenever any skip rule fires: planar radius
`Math.sqrt(x * x + z * z)` below `minRadiusThreshold`, or `|ny| > 0.5`, or
`v < 0.05` or `v > 0.95`. -/
theorem displacement_skip_rules (hm : Canvas) (scale thr : ℚ) (p : Vtx)
    (h : Real.sqrt ((p.x * p.x + p.z * p.z : ℚ) : ℝ) < (thr : ℝ) ∨
         0.5 < |p.ny| ∨ p.v < 0.05 ∨ 0.95 < p.v) :
    displaceVertex hm scale thr p = (p.x, p.y, p.z) := by
  unfold displaceVertex
  by_cases h1 : sqrtLt (p.x * p.x + p.z * p.z) thr
  · rw [if_pos h1]
  · rw [if_neg h1]
    rcases h with hr | hny | hv
    · have hs : (0 : ℚ) ≤ p.x * p.x + p.z * p.z :=
        add_nonneg (mul_self_nonneg _) (mul_self_nonneg _)
      exact absurd ((sqrtLt_iff _ _ hs).mpr hr) h1
    · rw [if_pos hny]
    · by_cases h2 : 0.5 < |p.ny|
      · rw [if_pos h2]
      · rw [if_neg h2, if_pos hv]

/-- Witness for C2: a cap vertex (`|ny| = 1 > 0.5`) is left untouched. -/
theorem displacement_skip_rules_witness :
    (0.5 : ℚ) < |(1 : ℚ)| ∧
    displaceVertex ⟨4, 4, fun _ => 255⟩ 1 1 ⟨3, 2, 3, 0, 1, 0, 0.5, 0.5⟩
      = (3, 2, 3) :=
  ⟨by norm_num,
   displacement_skip_rules ⟨4, 4, fun _ => 255⟩ 1 1 ⟨3, 2, 3, 0, 1, 0, 0.5, 0.5⟩
     (Or.inr (Or.inl (by norm_num)))⟩

/-- C4: under the precondition that the stored normal has unit length, the
distance between the output and input position of a vertex processed by
`applyDisplacement` equals `w * |displacementScale|` for some weight
`w ∈ [0, 1]`; hence no vertex moves farther than `|displacementScale|`
(which `updateGeometry` instantiates with `±embossDepth`). -/
theorem displacement_distance_bound (hm : Canvas) (scale thr : ℚ) (p : Vtx)
    (hunit : p.nx ^ 2 + p.ny ^ 2 + p.nz ^ 2 = 1) :
    ∃ w : ℚ, 0 ≤ w ∧ w ≤ 1 ∧
      Real.sqrt ((distSq (displaceVertex hm scale thr p) (p.x, p.y, p.z) : ℚ))
        = (w : ℝ) * |(scale : ℝ)| ∧
      Real.sqrt ((distSq (displaceVertex hm scale thr p) (p.x, p.y, p.z) : ℚ))
        ≤ |(scale : ℝ)| := by
  rcases displaceVertex_cases hm scale thr p with h | ⟨hpos, h⟩
  · refine ⟨0, le_refl 0, by norm_num, ?_, ?_⟩
    · rw [h]
      have h0 : distSq (p.x, p.y, p.z) (p.x, p.y, p.z) = 0 := by
        simp [distSq]
      rw [h0]
      push_cast
      rw [Real.sqrt_zero]
      ring
    · rw [h]
      have h0 : distSq (p.x, p.y, p.z) (p.x, p.y, p.z) = 0 := by
        simp [distSq]
      rw [h0]
      push_cast
      rw [Real.sqrt_zero]
      exact abs_nonneg _
  · set w := smoothWeight (samplePixel hm p.u p.v) with hw
    have hw0 : 0 ≤ w := smoothWeight_nonneg _
    have hw1 : w ≤ 1 := smoothWeight_le_one _
    have hdsq : distSq (displaceVertex hm scale thr p) (p.x, p.y, p.z)
        = (w * scale) ^ 2 := by
      rw [h]
      simp only [distSq]
      linear_combination (w * scale) ^ 2 * hunit
    have hsqrt : Real.sqrt
        ((distSq (displaceVertex hm scale thr p) (p.x, p.y, p.z) : ℚ))
        = (w : ℝ) * |(scale : ℝ)| := by
      rw [hdsq]
      push_cast
      rw [Real.sqrt_sq_eq_abs, abs_mul,
        abs_of_nonneg (show (0 : ℝ) ≤ (w : ℝ) by exact_mod_cast hw0)]
    refine ⟨w, hw0, hw1, hsqrt, ?_⟩
    rw [hsqrt]
    have : (w : ℝ) ≤ 1 := by exact_mod_cast hw1
    nlinarith [abs_nonneg ((scale : ℝ))]

/-- Witness for C4 at a concrete vertex with unit normal `(1, 0, 0)`. -/
theorem displacement_distance_bound_witness :
    ((1 : ℚ) ^ 2 + (0 : ℚ) ^ 2 + (0 : ℚ) ^ 2 = 1) ∧
    (∃ w : ℚ, 0 ≤ w ∧ w ≤ 1 ∧
      Real.sqrt ((distSq
          (displaceVertex ⟨4, 4, fun _ => 0⟩ 1 1 ⟨2, 0, 0, 1, 0, 0, 0.5, 0.5⟩)
          (2, 0, 0) : ℚ))
        = (w : ℝ) * |((1 : ℚ) : ℝ)| ∧
      Real.sqrt ((distSq
          (displaceVertex ⟨4, 4, fun _ => 0⟩ 1 1 ⟨2, 0, 0, 1, 0, 0, 0.5, 0.5⟩)
          (2, 0, 0) : ℚ))
        ≤ |((1 : ℚ) : ℝ)|) :=
  ⟨by norm_num,
   displacement_distance_bound ⟨4, 4, fun _ => 0⟩ 1 1 ⟨2, 0, 0, 1, 0, 0, 0.5, 0.5⟩
     (by norm_num)⟩

/-- C1: for every configuration with `cylinderRadius > 0` and
`embossDepth ≥ 0`, the positive mesh is built at outer radius `R` and
displaced with scale `+d` while the negative mesh is built at outer radius
`R + d` and displaced with scale `-d`; consequently a fully displaced
(weight-1) shell vertex of the negative mesh — one sitting at planar radius
`R + d` with horizontal outward unit normal, inside the vertical safety band,
sampling intensity at least 0.60 — ends at planar radius exactly `R`, the
positive mesh's undisplaced outer radius (zero-gap nesting; the rational
model is exact, subsuming the floating-point tolerance). -/
theorem nesting_zero_gap (cfg : AppState) (hm : Canvas) (p : Vtx)
    (hR : 0 < cfg.cylinderRadius) (hd : 0 ≤ cfg.embossDepth)
    (hshell : p.x * p.x + p.z * p.z
      = (cfg.cylinderRadius + cfg.embossDepth) ^ 2)
    (hnx : p.nx = p.x / (cfg.cylinderRadius + cfg.embossDepth))
    (hny : p.ny = 0)
    (hnz : p.nz = p.z / (cfg.cylinderRadius + cfg.embossDepth))
    (hv1 : 0.05 ≤ p.v) (hv2 : p.v ≤ 0.95)
    (hsample : 0.60 ≤ samplePixel hm p.u p.v) :
    (positiveParams cfg).buildRadius = cfg.cylinderRadius ∧
    (positiveParams cfg).dispScale = cfg.embossDepth ∧
    (negativeParams cfg).buildRadius
      = cfg.cylinderRadius + cfg.embossDepth ∧
    (negativeParams cfg).dispScale = -cfg.embossDepth ∧
    (displaceVertex hm (negativeParams cfg).dispScale
        (negativeParams cfg).minRadiusThreshold p).1 ^ 2
      + (displaceVertex hm (negativeParams cfg).dispScale
          (negativeParams cfg).minRadiusThreshold p).2.2 ^ 2
      = cfg.cylinderRadius ^ 2 := by
  refine ⟨rfl, rfl, rfl, rfl, ?_⟩
  set R := cfg.cylinderRadius with hRdef
  set d := cfg.embossDepth with hddef
  have hRd : 0 < R + d := by linarith
  have hskip1 : ¬ sqrtLt (p.x * p.x + p.z * p.z)
      (negativeParams cfg).minRadiusThreshold := by
    rintro ⟨-, hlt⟩
    rw [hshell] at hlt
    simp only [negativeParams] at hlt
    nlinarith
  have hskip2 : ¬ (0.5 : ℚ) < |p.ny| := by
    rw [hny]
    norm_num
  have hskip3 : ¬ (p.v < 0.05 ∨ 0.95 < p.v) := by
    rintro (h | h) <;> linarith
  have hw : smoothWeight (samplePixel hm p.u p.v) = 1 :=
    smoothWeight_of_ge _ hsample
  unfold displaceVertex
  rw [if_neg hskip1, if_neg hskip2, if_neg hskip3]
  dsimp only []
  rw [hw, if_pos (show (0 : ℚ) < 1 by norm_num)]
  simp only [negativeParams]
  rw [hnx, hnz]
  have hx : p.x + p.x / (R + d) * (1 * -d) = p.x * R / (R + d) := by
    field_simp
    ring
  have hz : p.z + p.z / (R + d) * (1 * -d) = p.z * R / (R + d) := by
    field_simp
    ring
  rw [hx, hz]
  rw [div_pow, div_pow, div_add_div_same, div_eq_iff (by positivity)]
  linear_combination (R ^ 2) * hshell

/-- Witness for C1 at the default configuration (radius 15, emboss depth 0.4)
with a concrete shell vertex of the negative mesh at planar radius 15.4: the
fully displaced vertex ends at squared planar radius 15². -/
theorem nesting_zero_gap_witness :
    (0 : ℚ) < DEFAULT_STATE.cylinderRadius ∧
    (displaceVertex ⟨4, 4, fun _ => 255⟩
        (negativeParams DEFAULT_STATE).dispScale
        (negativeParams DEFAULT_STATE).minRadiusThreshold
        ⟨15.4, 0, 0, 1, 0, 0, 0, 0.5⟩).1 ^ 2
      + (displaceVertex ⟨4, 4, fun _ => 255⟩
          (negativeParams DEFAULT_STATE).dispScale
          (negativeParams DEFAULT_STATE).minRadiusThreshold
          ⟨15.4, 0, 0, 1, 0, 0, 0, 0.5⟩).2.2 ^ 2
      = DEFAULT_STATE.cylinderRadius ^ 2 :=
  ⟨by norm_num [DEFAULT_STATE],
   (nesting_zero_gap DEFAULT_STATE ⟨4, 4, fun _ => 255⟩
      ⟨15.4, 0, 0, 1, 0, 0, 0, 0.5⟩
      (by norm_num [DEFAULT_STATE]) (by norm_num [DEFAULT_STATE])
      (by norm_num [DEFAULT_STATE]) (by norm_num [DEFAULT_STATE])
      (by norm_num) (by norm_num [DEFAULT_STATE]) (by norm_num) (by norm_num)
      (by norm_num [samplePixel])).2.2.2.2⟩

/-- C5: in `buildCylinderGeometry`, every vertex whose planar radius
`r = sqrt(x² + z²)` satisfies `r > 0.8 * radius` is assigned the cylindrical
UVs `u = atan2(x, z) / (2π) + 0.5` and `v = (y + height/2) / height`, and
every vertex with `r ≤ 0.8 * radius` keeps its previously assigned projected
UV coordinates unchanged. -/
theorem buildCylinder_uv_classification (radius height : ℚ) (p : Vtx) :
    ((radius : ℝ) * 0.8 < Real.sqrt ((p.x * p.x + p.z * p.z : ℚ)) →
      fixShellUV radius height p =
        (atan2 ((p.x : ℝ)) ((p.z : ℝ)) / (2 * Real.pi) + 0.5,
         ((p.y : ℝ) + (height : ℝ) / 2) / (height : ℝ))) ∧
    (Real.sqrt ((p.x * p.x + p.z * p.z : ℚ)) ≤ (radius : ℝ) * 0.8 →
      fixShellUV radius height p = ((p.u : ℝ), (p.v : ℝ))) := by
  have hcast : ((radius * 0.8 : ℚ) : ℝ) = (radius : ℝ) * 0.8 := by
    push_cast
    norm_num
  constructor
  · intro h
    unfold fixShellUV
    rw [if_pos]
    rw [sqrtGt_iff, hcast]
    exact h
  · intro h
    unfold fixShellUV
    rw [if_neg]
    rw [sqrtGt_iff, hcast]
    exact not_lt.mpr h

/-- Witness for C5: the vertex at `(x, z) = (4, 3)` with `radius = 5` has
planar radius `5 > 4 = 0.8 * 5` and receives the cylindrical UV mapping. -/
theorem buildCylinder_uv_classification_witness :
    ((5 : ℚ) : ℝ) * 0.8 < Real.sqrt (((4 * 4 + 3 * 3 : ℚ) : ℝ)) ∧
    fixShellUV 5 10 ⟨4, 0, 3, 0, 1, 0, 0.25, 0.75⟩ =
      (atan2 (((4 : ℚ)) : ℝ) (((3 : ℚ)) : ℝ) / (2 * Real.pi) + 0.5,
       (((0 : ℚ) : ℝ) + ((10 : ℚ) : ℝ) / 2) / ((10 : ℚ) : ℝ)) := by
  have hlt : ((5 : ℚ) : ℝ) * 0.8 < Real.sqrt (((4 * 4 + 3 * 3 : ℚ) : ℝ)) := by
    have h25 : (((4 * 4 + 3 * 3 : ℚ)) : ℝ) = 5 ^ 2 := by norm_num
    rw [h25, Real.sqrt_sq (by norm_num)]
    norm_num
  exact ⟨hlt,
    (buildCylinder_uv_classification 5 10 ⟨4, 0, 3, 0, 1, 0, 0.25, 0.75⟩).1 hlt⟩

/-- C6: with `cylinderRadius = 15` the thresholds handed to
`applyDisplacement` are `0.9 * 15 = 13.5` (positive mesh) and
`0.9 * (15 + embossDepth)` (negative mesh); every vertex of the 15×15 plug
prism has `|x| ≤ 7.5` and `|z| ≤ 7.5`, hence squared planar radius at most
`112.5 = (7.5√2)² < 13.5²`, so the radius skip rule fires and both meshes'
plug cross-section is left untouched. -/
theorem plug_untouched (cfg : AppState) (hm : Canvas) (scale : ℚ) (p : Vtx)
    (hcfg : cfg.cylinderRadius = 15) (hd : 0 ≤ cfg.embossDepth)
    (hx : |p.x| ≤ 15 / 2) (hz : |p.z| ≤ 15 / 2) :
    p.x * p.x + p.z * p.z ≤ 225 / 2 ∧
    Real.sqrt ((p.x * p.x + p.z * p.z : ℚ)) ≤ (15 / 2) * Real.sqrt 2 ∧
    displaceVertex hm scale (positiveParams cfg).minRadiusThreshold p
      = (p.x, p.y, p.z) ∧
    displaceVertex hm scale (negativeParams cfg).minRadiusThreshold p
      = (p.x, p.y, p.z) := by
  have hx2 : p.x * p.x ≤ 225 / 4 := by
    nlinarith [abs_nonneg p.x, abs_mul_abs_self p.x]
  have hz2 : p.z * p.z ≤ 225 / 4 := by
    nlinarith [abs_nonneg p.z, abs_mul_abs_self p.z]
  have hsum : p.x * p.x + p.z * p.z ≤ 225 / 2 := by linarith
  refine ⟨hsum, ?_, ?_, ?_⟩
  · have h1 : Real.sqrt ((p.x * p.x + p.z * p.z : ℚ))
        ≤ Real.sqrt (((225 / 2 : ℚ) : ℝ)) :=
      Real.sqrt_le_sqrt (by exact_mod_cast hsum)
    have h2 : Real.sqrt (((225 / 2 : ℚ) : ℝ)) = (15 / 2) * Real.sqrt 2 := by
      have : (((225 / 2 : ℚ)) : ℝ) = (15 / 2) ^ 2 * 2 := by norm_num
      rw [this, Real.sqrt_mul (sq_nonneg _), Real.sqrt_sq (by norm_num)]
    rw [h2] at h1
    exact h1
  · unfold displaceVertex
    have hs : sqrtLt (p.x * p.x + p.z * p.z)
        (positiveParams cfg).minRadiusThreshold := by
      simp only [positiveParams, sqrtLt, hcfg]
      exact ⟨by norm_num, by nlinarith⟩
    rw [if_pos hs]
  · unfold displaceVertex
    have hs : sqrtLt (p.x * p.x + p.z * p.z)
        (negativeParams cfg).minRadiusThreshold := by
      simp only [negativeParams, sqrtLt, hcfg]
      exact ⟨by nlinarith, by nlinarith⟩
    rw [if_pos hs]

/-- Witness for C6 at the default configuration with a plug corner vertex at
`(x, z) = (7.5, 7.5)`. -/
theorem plug_untouched_witness :
    DEFAULT_STATE.cylinderRadius = 15 ∧
    displaceVertex ⟨4, 4, fun _ => 255⟩ 0.4
        (positiveParams DEFAULT_STATE).minRadiusThreshold
        ⟨15 / 2, 3, 15 / 2, 0, 0, 1, 0.5, 0.5⟩
      = (15 / 2, 3, 15 / 2) ∧
    displaceVertex ⟨4, 4, fun _ => 255⟩ 0.4
        (negativeParams DEFAULT_STATE).minRadiusThreshold
        ⟨15 / 2, 3, 15 / 2, 0, 0, 1, 0.5, 0.5⟩
      = (15 / 2, 3, 15 / 2) := by
  have h := plug_untouched DEFAULT_STATE ⟨4, 4, fun _ => 255⟩ 0.4
    ⟨15 / 2, 3, 15 / 2, 0, 0, 1, 0.5, 0.5⟩
    (by norm_num [DEFAULT_STATE]) (by norm_num [DEFAULT_STATE])
    (by norm_num [abs_le]) (by norm_num [abs_le])
  exact ⟨by norm_num [DEFAULT_STATE], h.2.2.1, h.2.2.2⟩

/-- C10: for every cylinder height `h > 0`, the plug merged into the solid is
a box with 15×15 cross-section and height exactly `max(0.1, h - 30)`; the
plug height is always at least 0.1 and strictly positive, even when `h ≤ 30`
where the nominal `h - 30` would be zero or negative (there it is exactly
0.1). -/
theorem plug_dimensions_spec (h : ℚ) (hh : 0 < h) :
    plugDimensions h = (15, max 0.1 (h - 30), 15) ∧
    0.1 ≤ plugHeight h ∧ 0 < plugHeight h ∧
    (h ≤ 30 → plugHeight h = 0.1) := by
  refine ⟨rfl, le_max_left _ _, ?_, ?_⟩
  · exact lt_of_lt_of_le (by norm_num) (le_max_left _ _)
  · intro h30
    exact max_eq_left (by linarith)

/-- Witness for C10 at height 20, below the 30-unit double socket depth. -/
theorem plug_dimensions_spec_witness :
    (0 : ℚ) < 20 ∧ plugDimensions 20 = (15, max 0.1 ((20 : ℚ) - 30), 15) ∧
    (0.1 : ℚ) ≤ plugHeight 20 ∧ (0 : ℚ) < plugHeight 20 ∧
    ((20 : ℚ) ≤ 30 → plugHeight 20 = 0.1) :=
  ⟨by norm_num, plug_dimensions_spec 20 (by norm_num)⟩

/-- C7: if generation cycle A is superseded by cycle B before A commits, then
once A's cancellation flag is set A performs no further commit of either mesh
(the display state is unchanged by A's run), and the finally displayed pair
consists of the positive and negative outputs of the same cycle — B's
configuration — never a mix of A's and B's meshes. -/
theorem cancelled_cycle_never_mixes {M : Type} (posOf negOf : AppState → M)
    (c1 : Bool) (cfgA cfgB : AppState) (st0 : DisplayState M) :
    updateGeometryRun posOf negOf c1 true cfgA st0 = st0 ∧
    updateGeometryRun posOf negOf false false cfgB
        (updateGeometryRun posOf negOf c1 true cfgA st0)
      = ⟨some (posOf cfgB), some (negOf cfgB)⟩ := by
  constructor
  · cases c1 <;> simp [updateGeometryRun]
  · cases c1 <;> simp [updateGeometryRun]

/-- C8: every export request made before any mesh pair has been committed
does not crash (the model is total) and produces a user-visible alert — the
"not ready" report or the "please wait" report — never the silent no-op of
an export closure run with an empty group. -/
theorem export_before_commit_reports (s : AppUiState)
    (h : preCommitReachable s) :
    handleExport s ≠ ExportOutcome.silentNoop ∧
    (handleExport s = ExportOutcome.alertPleaseWait ∨
      handleExport s = ExportOutcome.alertNotReady) := by
  rcases h with h | h <;> subst h <;> exact ⟨by decide, by decide⟩

/-- Witness for C8 at the initial UI state: the request is answered with the
"Geometry not ready yet." alert. -/
theorem export_before_commit_reports_witness :
    preCommitReachable initialUiState ∧
    handleExport initialUiState ≠ ExportOutcome.silentNoop ∧
    (handleExport initialUiState = ExportOutcome.alertPleaseWait ∨
      handleExport initialUiState = ExportOutcome.alertNotReady) :=
  ⟨Or.inl rfl, export_before_commit_reports initialUiState (Or.inl rfl)⟩

/-- C9: if the 2D drawing context cannot be acquired, `generateHeightMap`
still returns a heightmap whose every pixel samples as intensity 0 (all
background); the generation cycle proceeds with it — displacement then
leaves every vertex untouched rather than failing. -/
theorem heightmap_no_context_all_background (w h : ℕ) :
    (∀ u v : ℚ, samplePixel (generateHeightMapNoContext w h) u v = 0) ∧
    (∀ u v : ℚ,
      smoothWeight (samplePixel (generateHeightMapNoContext w h) u v) = 0) ∧
    (∀ (scale thr : ℚ) (p : Vtx),
      displaceVertex (generateHeightMapNoContext w h) scale thr p
        = (p.x, p.y, p.z)) := by
  have hsample : ∀ u v : ℚ,
      samplePixel (generateHeightMapNoContext w h) u v = 0 := by
    intro u v
    simp [samplePixel, generateHeightMapNoContext, createCanvasElement]
  have hweight : ∀ u v : ℚ,
      smoothWeight (samplePixel (generateHeightMapNoContext w h) u v) = 0 := by
    intro u v
    rw [hsample u v]
    exact smoothWeight_of_le 0 (by norm_num)
  refine ⟨hsample, hweight, ?_⟩
  intro scale thr p
  unfold displaceVertex
  split_ifs with h1 h2 h3
  · rfl
  · rfl
  · rfl
  · dsimp only []
    rw [hweight p.u p.v]
    rw [if_neg (by norm_num)]

end ThreeDTool
